import Mathlib

/-!
Verification of the NARegionalAccents audio preprocessing / quality
classification core against its specification.

The development shallowly embeds the relevant Python code:

* `scripts/robust_audio_analyzer.py` — `RobustAudioAnalyzer`:
  quality scoring, two-staged noise-level classification,
  recommendation, and batch aggregation;
* `scripts/noise_detector.py` — `NoiseDetector`: the ffprobe-based
  variant of the same score / noise-level / recommendation chain;
* `accent_feature_extractor.py` — `extract_features` and `main`:
  silence-trim guard, pitch/tempo recovery, and the batch
  orchestration counters.

Machine floats are modelled as rationals (`ℚ`), result dictionaries as
structures, and per-file exception handling as `Option`/`Except`.
-/

namespace AccentAudio

/-! ## Calibrated thresholds of `RobustAudioAnalyzer.__init__` -/

/-- `self.thresholds['very_high_noise_rms']` in `robust_audio_analyzer.py`. -/
def very_high_noise_rms : ℚ := -5

/-- `self.thresholds['high_noise_rms']`. -/
def high_noise_rms : ℚ := -15

/-- `self.thresholds['medium_noise_rms']`. -/
def medium_noise_rms : ℚ := -25

/-- `self.thresholds['very_high_noise_dynamic_range']`. -/
def very_high_noise_dynamic_range : ℚ := 5

/-- `self.thresholds['high_noise_dynamic_range']`. -/
def high_noise_dynamic_range : ℚ := 15

/-- `self.thresholds['medium_noise_dynamic_range']`. -/
def medium_noise_dynamic_range : ℚ := 25

/-- `self.thresholds['high_frequency_noise_threshold']`. -/
def high_frequency_noise_threshold : ℚ := 4/10

/-- `self.thresholds['spectral_centroid_speech_min']`. -/
def spectral_centroid_speech_min : ℚ := 500

/-- `self.thresholds['spectral_centroid_speech_max']`. -/
def spectral_centroid_speech_max : ℚ := 3000

/-! ## Data carried between the analyzer's stages -/

/-- Result of `RobustAudioAnalyzer._get_basic_info`. -/
structure BasicInfo where
  sample_rate : ℕ
  duration : ℚ
  file_size : ℕ
  samples : ℕ

/-- The fields of `RobustAudioAnalyzer._analyze_audio_characteristics`
(including the spectral fields merged in from `_analyze_spectrum`) that
are consumed by the scoring and classification stages. -/
structure AudioAnalysis where
  rms_db : ℚ
  peak_db : ℚ
  dynamic_range : ℚ
  zero_crossing_rate : ℚ
  spectral_centroid : ℚ
  high_frequency_ratio : ℚ

/-- The flags of `RobustAudioAnalyzer._detect_multiple_speakers` consumed
downstream. -/
structure SpeakerAnalysis where
  multiple_speakers_detected : Bool
  background_noise_detected : Bool

/-! ## `RobustAudioAnalyzer._calculate_quality_score` -/

/-- Embedding of `RobustAudioAnalyzer._calculate_quality_score`
(`robust_audio_analyzer.py`, lines 300–366): the running `score` sum is
written as a sum of the individual branch contributions, followed by the
final `max(0, min(100, score))` clamp. -/
def calculateQualityScore (basic : BasicInfo) (audio : AudioAnalysis)
    (speaker : SpeakerAnalysis) : ℚ :=
  let rmsScore : ℚ :=
    if -25 ≤ audio.rms_db ∧ audio.rms_db ≤ -10 then 25
    else if -35 ≤ audio.rms_db ∧ audio.rms_db ≤ -5 then 20
    else if -45 ≤ audio.rms_db ∧ audio.rms_db ≤ 0 then 15
    else 5
  let dynScore : ℚ :=
    if audio.dynamic_range ≥ 30 then 25
    else if audio.dynamic_range ≥ 20 then 20
    else if audio.dynamic_range ≥ 10 then 15
    else 5
  let zcrScore : ℚ :=
    if audio.zero_crossing_rate < 5/100 then 20
    else if audio.zero_crossing_rate < 1/10 then 15
    else if audio.zero_crossing_rate < 2/10 then 10
    else 5
  let spectralScore : ℚ :=
    if spectral_centroid_speech_min ≤ audio.spectral_centroid ∧
        audio.spectral_centroid ≤ spectral_centroid_speech_max then 20
    else if 200 ≤ audio.spectral_centroid ∧ audio.spectral_centroid ≤ 5000 then 15
    else 10
  let fileScore : ℚ :=
    if basic.file_size ≥ 50000 then 10
    else if basic.file_size ≥ 20000 then 8
    else if basic.file_size ≥ 10000 then 5
    else 0
  let speakerPenalty : ℚ := if speaker.multiple_speakers_detected then 15 else 0
  let noisePenalty : ℚ := if speaker.background_noise_detected then 10 else 0
  let hfPenalty : ℚ :=
    if audio.high_frequency_ratio > high_frequency_noise_threshold then 10 else 0
  max 0 (min 100
    (rmsScore + dynScore + zcrScore + spectralScore + fileScore
      - speakerPenalty - noisePenalty - hfPenalty))

/-! ## `RobustAudioAnalyzer._determine_noise_level` -/

/-- Embedding of `RobustAudioAnalyzer._determine_noise_level`
(`robust_audio_analyzer.py`, lines 368–417).  Python accumulates
`very_high_indicators` / `high_indicators` by successive `+= 1`
statements; the accumulated totals are written here as sums of
indicator terms in the same order. -/
def determineNoiseLevel (audio : AudioAnalysis) (speaker : SpeakerAnalysis)
    (quality_score : ℚ) : String :=
  if (if audio.rms_db > very_high_noise_rms then 1 else 0)
      + (if audio.dynamic_range < very_high_noise_dynamic_range then 1 else 0)
      + (if audio.zero_crossing_rate > 3/10 then 1 else 0)
      + (if speaker.multiple_speakers_detected && speaker.background_noise_detected
          then 1 else 0)
      + (if quality_score < 30 then 1 else 0) ≥ 2 then "very_high"
  else if (if audio.rms_db > high_noise_rms then 1 else 0)
      + (if audio.dynamic_range < high_noise_dynamic_range then 1 else 0)
      + (if audio.zero_crossing_rate > 2/10 then 1 else 0)
      + (if speaker.multiple_speakers_detected then 1 else 0)
      + (if quality_score < 50 then 1 else 0) ≥ 2 then "high"
  else if audio.rms_db > medium_noise_rms ∨
      audio.dynamic_range < medium_noise_dynamic_range ∨
      quality_score < 70 then "medium"
  else "low"

/-! ## The claim's tally-based reading of the noise-level classifier -/

/-- The five "very high" predicates of the claim, in source order:
RMS above the very-high threshold, dynamic range below the very-high
threshold, zero-crossing rate above its very-high cut, both speaker
flags set, quality score below 30. -/
def veryHighIndicatorList (audio : AudioAnalysis) (speaker : SpeakerAnalysis)
    (quality_score : ℚ) : List Bool :=
  [decide (audio.rms_db > very_high_noise_rms),
   decide (audio.dynamic_range < very_high_noise_dynamic_range),
   decide (audio.zero_crossing_rate > 3/10),
   speaker.multiple_speakers_detected && speaker.background_noise_detected,
   decide (quality_score < 30)]

/-- The five analogous looser "high" predicates of the claim. -/
def highIndicatorList (audio : AudioAnalysis) (speaker : SpeakerAnalysis)
    (quality_score : ℚ) : List Bool :=
  [decide (audio.rms_db > high_noise_rms),
   decide (audio.dynamic_range < high_noise_dynamic_range),
   decide (audio.zero_crossing_rate > 2/10),
   speaker.multiple_speakers_detected,
   decide (quality_score < 50)]

/-- The claim's description of the classifier: tally the very-high
predicates, return `very_high` on at least 2; otherwise tally the
looser high predicates, return `high` on at least 2; otherwise decide
`medium` / `low` from the score and threshold bands. -/
def noiseLevelByTallies (audio : AudioAnalysis) (speaker : SpeakerAnalysis)
    (quality_score : ℚ) : String :=
  if (veryHighIndicatorList audio speaker quality_score).count true ≥ 2 then "very_high"
  else if (highIndicatorList audio speaker quality_score).count true ≥ 2 then "high"
  else if audio.rms_db > medium_noise_rms ∨
      audio.dynamic_range < medium_noise_dynamic_range ∨
      quality_score < 70 then "medium"
  else "low"

/-- Counting `true` in a five-element indicator list is the sum of the
individual indicator terms, in order. -/
lemma count_true_five (c1 c2 c3 c5 : Prop) [Decidable c1] [Decidable c2]
    [Decidable c3] [Decidable c5] (b4 : Bool) :
    ([decide c1, decide c2, decide c3, b4, decide c5].count true : ℕ)
      = (if c1 then 1 else 0) + (if c2 then 1 else 0) + (if c3 then 1 else 0)
        + (if b4 then 1 else 0) + (if c5 then 1 else 0) := by
  by_cases h1 : c1 <;> by_cases h2 : c2 <;> by_cases h3 : c3 <;>
    cases b4 <;> by_cases h5 : c5 <;>
    simp [h1, h2, h3, h5, List.count_cons]

/-- C2: the noise-level classifier is the two-staged indicator count
described by the claim: at least 2 of the five very-high predicates give
`very_high`; otherwise at least 2 of the five looser high predicates
give `high`; otherwise `medium` or `low` follow from the score and
threshold bands. -/
theorem determineNoiseLevel_eq_tallies (audio : AudioAnalysis)
    (speaker : SpeakerAnalysis) (quality_score : ℚ) :
    determineNoiseLevel audio speaker quality_score
      = noiseLevelByTallies audio speaker quality_score := by
  unfold determineNoiseLevel noiseLevelByTallies veryHighIndicatorList highIndicatorList
  rw [count_true_five, count_true_five]

/-! ## `RobustAudioAnalyzer._get_recommendation` -/

/-- Message of the `EXCLUDE` branch. -/
def excludeMsg : String := "EXCLUDE - Too noisy for accent analysis"

/-- Message of the `REVIEW` branch. -/
def reviewMsg : String := "REVIEW - High noise, may affect analysis"

/-- Message of the `ACCEPTABLE` branch. -/
def acceptableMsg : String := "ACCEPTABLE - Moderate noise, usable with caution"

/-- Message of the `GOOD` branch. -/
def goodMsg : String := "GOOD - Low noise, suitable for analysis"

/-- Embedding of `RobustAudioAnalyzer._get_recommendation`
(`robust_audio_analyzer.py`, lines 419–428). -/
def getRecommendation (noise_level : String) (quality_score : ℚ) : String :=
  if noise_level = "very_high" ∨ quality_score < 30 then excludeMsg
  else if noise_level = "high" ∨ quality_score < 50 then reviewMsg
  else if noise_level = "medium" ∨ quality_score < 70 then acceptableMsg
  else goodMsg

/-- Leniency rank of a recommendation message: `EXCLUDE` is strictest
(0), `GOOD` most lenient (3). -/
def leniency (recommendation : String) : ℕ :=
  if recommendation = excludeMsg then 0
  else if recommendation = reviewMsg then 1
  else if recommendation = acceptableMsg then 2
  else 3

/-! ## `RobustAudioAnalyzer.analyze_audio_file` -/

/-- The fields of the dictionary returned by
`RobustAudioAnalyzer.analyze_audio_file` that the claims are about.
`error` is `some` exactly when Python puts an `'error'` key into the
result. -/
structure AnalyzeResult where
  error : Option String
  noise_level : String
  quality_score : ℚ
  recommendation : String

/-- The data a successful `_load_audio_data` + analysis stages produce
for one clip.  The numeric work of `_analyze_audio_characteristics` and
`_detect_multiple_speakers` is numpy/scipy-side; the analyzer's control
flow consumes it through these records. -/
structure ClipData where
  basic : BasicInfo
  audio : AudioAnalysis
  speaker : SpeakerAnalysis

/-- Embedding of `RobustAudioAnalyzer.analyze_audio_file`
(`robust_audio_analyzer.py`, lines 56–106).  `none` stands for the
paths on which Python builds an error dictionary (load failure, or an
exception caught by the outer `try`): there `noise_level` is
`'unknown'` and `quality_score` is 0. -/
def analyzeAudioFile (loaded : Option ClipData) : AnalyzeResult :=
  match loaded with
  | none =>
      { error := some "Could not load audio data"
        noise_level := "unknown"
        quality_score := 0
        recommendation := "ERROR - Cannot load audio" }
  | some d =>
      let quality_score := calculateQualityScore d.basic d.audio d.speaker
      let noise_level := determineNoiseLevel d.audio d.speaker quality_score
      { error := none
        noise_level := noise_level
        quality_score := quality_score
        recommendation := getRecommendation noise_level quality_score }

/-- The four defined noise levels. -/
def fourNoiseLevels : List String := ["low", "medium", "high", "very_high"]

/-- A three-way guarded choice between the four level literals always
lands in `fourNoiseLevels`. -/
lemma ite_levels_mem (c1 c2 c3 : Prop) [Decidable c1] [Decidable c2]
    [Decidable c3] :
    (if c1 then "very_high" else if c2 then "high"
      else if c3 then "medium" else "low") ∈ fourNoiseLevels := by
  split_ifs <;> decide

/-- `_determine_noise_level` only ever returns one of the four defined
levels. -/
lemma determineNoiseLevel_mem_four (audio : AudioAnalysis)
    (speaker : SpeakerAnalysis) (quality_score : ℚ) :
    determineNoiseLevel audio speaker quality_score ∈ fourNoiseLevels := by
  unfold determineNoiseLevel
  exact ite_levels_mem _ _ _

/-! ## `NoiseDetector` (`noise_detector.py`) -/

/-- The metrics `NoiseDetector._parse_ffmpeg_output` extracts and the
downstream stages consume. -/
structure NoiseMetrics where
  rms_level : ℚ
  peak_level : ℚ
  dynamic_range : ℚ

/-- Embedding of `NoiseDetector._calculate_quality_score`
(`noise_detector.py`, lines 171–222): sum of the branch contributions,
capped by the final `min(score, 100)`. -/
def ndCalculateQualityScore (sample_rate : ℕ) (channels : ℕ) (duration : ℚ)
    (bitrate : ℕ) (na : NoiseMetrics) : ℚ :=
  let srScore : ℚ :=
    if sample_rate ≥ 44100 then 20
    else if sample_rate ≥ 22050 then 15
    else if sample_rate ≥ 16000 then 10
    else 0
  let chScore : ℚ :=
    if channels ≥ 2 then 10
    else if channels = 1 then 5
    else 0
  let durScore : ℚ :=
    if 120 ≤ duration ∧ duration ≤ 300 then 20
    else if 60 ≤ duration ∧ duration ≤ 600 then 15
    else 5
  let brScore : ℚ :=
    if bitrate ≥ 128000 then 20
    else if bitrate ≥ 64000 then 15
    else if bitrate ≥ 32000 then 10
    else 0
  let rmsScore : ℚ :=
    if -30 ≤ na.rms_level ∧ na.rms_level ≤ -10 then 15
    else if -40 ≤ na.rms_level ∧ na.rms_level ≤ -5 then 10
    else 0
  let drScore : ℚ :=
    if na.dynamic_range ≥ 20 then 15
    else if na.dynamic_range ≥ 10 then 10
    else 0
  min (srScore + chScore + durScore + brScore + rmsScore + drScore) 100

/-- Embedding of `NoiseDetector._determine_noise_level`
(`noise_detector.py`, lines 224–241). -/
def ndDetermineNoiseLevel (na : NoiseMetrics) (quality_score : ℚ) : String :=
  if na.rms_level > -10 then "very_high"
  else if na.rms_level > -15 then "high"
  else if quality_score < 50 then "high"
  else if na.dynamic_range < 5 then "medium"
  else if quality_score < 70 then "medium"
  else "low"

/-- Embedding of `NoiseDetector._get_recommendation`
(`noise_detector.py`, lines 243–252): the quality score argument is
received but never consulted. -/
def ndGetRecommendation (noise_level : String) (_quality_score : ℚ) : String :=
  if noise_level = "very_high" then excludeMsg
  else if noise_level = "high" then reviewMsg
  else if noise_level = "medium" then acceptableMsg
  else goodMsg

/-- `_determine_noise_level` never returns the error value `'unknown'`. -/
lemma determineNoiseLevel_ne_unknown (audio : AudioAnalysis)
    (speaker : SpeakerAnalysis) (quality_score : ℚ) :
    determineNoiseLevel audio speaker quality_score ≠ "unknown" := by
  intro h
  have hmem := determineNoiseLevel_mem_four audio speaker quality_score
  rw [h] at hmem
  exact absurd hmem (by decide)

/-- C6 (counterexample): a clip whose audio data cannot be loaded yields
an analysis result whose `noise_level` is `'unknown'`, which is none of
the four defined values. -/
theorem noise_level_unknown_on_error :
    (analyzeAudioFile none).noise_level = "unknown"
    ∧ (analyzeAudioFile none).noise_level ∉ fourNoiseLevels := by
  exact ⟨rfl, by decide⟩

/-- C6 (amended): the classifier proper only produces the four defined
noise levels, and every analysis result carries either one of those four
(successful analysis) or `'unknown'` (exactly the error results). -/
theorem noise_level_value_range :
    (∀ (audio : AudioAnalysis) (speaker : SpeakerAnalysis) (q : ℚ),
        determineNoiseLevel audio speaker q ∈ fourNoiseLevels)
    ∧ (∀ loaded : Option ClipData,
        (analyzeAudioFile loaded).noise_level ∈ "unknown" :: fourNoiseLevels)
    ∧ (∀ loaded : Option ClipData,
        ((analyzeAudioFile loaded).error.isSome
          ↔ (analyzeAudioFile loaded).noise_level = "unknown")) := by
  refine ⟨determineNoiseLevel_mem_four, ?_, ?_⟩
  · intro loaded
    cases loaded with
    | none => decide
    | some d =>
        exact List.mem_cons_of_mem _ (determineNoiseLevel_mem_four _ _ _)
  · intro loaded
    cases loaded with
    | none => simp [analyzeAudioFile]
    | some d =>
        simp [analyzeAudioFile, determineNoiseLevel_ne_unknown]

/-- C8: both quality scorers return a composite score within [0, 100]:
the robust analyzer by its final `max(0, min(100, score))` clamp, the
noise detector because its contributions are nonnegative and capped by
`min(score, 100)`. -/
theorem quality_score_bounds :
    (∀ (basic : BasicInfo) (audio : AudioAnalysis) (speaker : SpeakerAnalysis),
        0 ≤ calculateQualityScore basic audio speaker
          ∧ calculateQualityScore basic audio speaker ≤ 100)
    ∧ (∀ (sample_rate channels : ℕ) (duration : ℚ) (bitrate : ℕ)
        (na : NoiseMetrics),
        0 ≤ ndCalculateQualityScore sample_rate channels duration bitrate na
          ∧ ndCalculateQualityScore sample_rate channels duration bitrate na ≤ 100) := by
  constructor
  · intro basic audio speaker
    constructor
    · exact le_max_left _ _
    · exact max_le (by norm_num) (min_le_left _ _)
  · intro sample_rate channels duration bitrate na
    constructor
    · refine le_min ?_ (by norm_num)
      repeat apply add_nonneg
      all_goals split_ifs <;> norm_num
    · exact min_le_right _ _

/-- Concrete metrics for the C4 counterexample: a clip parsed with an
RMS level of −20 dB and no measured dynamic range. -/
def c4ClipMetrics : NoiseMetrics :=
  { rms_level := -20, peak_level := 0, dynamic_range := 0 }

/-- C4 (counterexample): in the noise detector, a clip scoring 20
(below the EXCLUDE cut point 30) whose derived noise level is `high`
receives the REVIEW recommendation, not EXCLUDE — the detector's
recommendation is a function of the noise level alone. -/
theorem nd_recommendation_ignores_score :
    ndCalculateQualityScore 8000 0 30 0 c4ClipMetrics = 20
    ∧ ndCalculateQualityScore 8000 0 30 0 c4ClipMetrics < 30
    ∧ ndDetermineNoiseLevel c4ClipMetrics
        (ndCalculateQualityScore 8000 0 30 0 c4ClipMetrics) = "high"
    ∧ ndGetRecommendation
        (ndDetermineNoiseLevel c4ClipMetrics
          (ndCalculateQualityScore 8000 0 30 0 c4ClipMetrics))
        (ndCalculateQualityScore 8000 0 30 0 c4ClipMetrics) = reviewMsg
    ∧ reviewMsg ≠ excludeMsg := by
  have hscore : ndCalculateQualityScore 8000 0 30 0 c4ClipMetrics = 20 := by
    norm_num [ndCalculateQualityScore, c4ClipMetrics]
  have hlevel : ndDetermineNoiseLevel c4ClipMetrics 20 = "high" := by
    norm_num [ndDetermineNoiseLevel, c4ClipMetrics]
  refine ⟨hscore, by rw [hscore]; norm_num, ?_, ?_, by decide⟩
  · rw [hscore]; exact hlevel
  · rw [hscore, hlevel]; decide

/-- C4 (amended): in the robust analyzer the recommendation follows the
fixed cut points of the claim — EXCLUDE for `very_high` noise or score
below 30, then REVIEW (high / below 50), then ACCEPTABLE (medium /
below 70), else GOOD — and a noise level never makes the recommendation
more lenient than the score band alone; the noise detector's variant
instead disregards the score and maps its noise level directly to the
recommendation. -/
theorem recommendation_cutpoints :
    (∀ (noise : String) (q : ℚ),
        leniency (getRecommendation noise q) ≤ leniency (getRecommendation "low" q))
    ∧ (∀ (noise : String) (q : ℚ),
        (getRecommendation noise q = excludeMsg ↔ (noise = "very_high" ∨ q < 30))
        ∧ (getRecommendation noise q = reviewMsg ↔
            (¬(noise = "very_high" ∨ q < 30) ∧ (noise = "high" ∨ q < 50)))
        ∧ (getRecommendation noise q = acceptableMsg ↔
            (¬(noise = "very_high" ∨ q < 30) ∧ ¬(noise = "high" ∨ q < 50)
              ∧ (noise = "medium" ∨ q < 70)))
        ∧ (getRecommendation noise q = goodMsg ↔
            (¬(noise = "very_high" ∨ q < 30) ∧ ¬(noise = "high" ∨ q < 50)
              ∧ ¬(noise = "medium" ∨ q < 70))))
    ∧ (∀ (noise : String) (q q' : ℚ),
        ndGetRecommendation noise q = ndGetRecommendation noise q') := by
  refine ⟨?_, ?_, ?_⟩
  · intro noise q
    by_cases h30 : q < 30
    · simp [getRecommendation, h30]
    · by_cases h50 : q < 50
      · have hR : getRecommendation "low" q = reviewMsg := by
          simp [getRecommendation, h30, h50]
        rw [hR]
        unfold getRecommendation
        split_ifs <;> first | decide | simp_all
      · by_cases h70 : q < 70
        · have hR : getRecommendation "low" q = acceptableMsg := by
            simp [getRecommendation, h30, h50, h70]
          rw [hR]
          unfold getRecommendation
          split_ifs <;> first | decide | simp_all
        · have hR : getRecommendation "low" q = goodMsg := by
            simp [getRecommendation, h30, h50, h70]
          rw [hR, show leniency goodMsg = 3 from by decide]
          unfold leniency
          split_ifs <;> norm_num
  · intro noise q
    unfold getRecommendation
    split_ifs with h1 h2 h3
    · exact ⟨iff_of_true rfl h1,
        iff_of_false (by decide) (fun h => h.1 h1),
        iff_of_false (by decide) (fun h => h.1 h1),
        iff_of_false (by decide) (fun h => h.1 h1)⟩
    · exact ⟨iff_of_false (by decide) h1,
        iff_of_true rfl ⟨h1, h2⟩,
        iff_of_false (by decide) (fun h => h.2.1 h2),
        iff_of_false (by decide) (fun h => h.2.1 h2)⟩
    · exact ⟨iff_of_false (by decide) h1,
        iff_of_false (by decide) (fun h => h2 h.2),
        iff_of_true rfl ⟨h1, h2, h3⟩,
        iff_of_false (by decide) (fun h => h.2.2 h3)⟩
    · exact ⟨iff_of_false (by decide) h1,
        iff_of_false (by decide) (fun h => h2 h.2),
        iff_of_false (by decide) (fun h => h3 h.2.2),
        iff_of_true rfl ⟨h1, h2, h3⟩⟩
  · intro noise q q'
    rfl

/-! ## `RobustAudioAnalyzer.batch_analyze` -/

/-- The `noise_levels` counter dictionary initialised in
`batch_analyze` with its five fixed keys. -/
structure NoiseLevelCounts where
  very_high : ℕ
  high : ℕ
  medium : ℕ
  low : ℕ
  unknown : ℕ

/-- `results['noise_levels'][noise_level] += 1`.  In Python the lookup
is a dictionary access over the five fixed keys; the classifier only
ever produces those five strings, so the fall-through branch (which
would be a `KeyError`) is unreachable and modelled as a no-op. -/
def bumpNoiseLevel (counts : NoiseLevelCounts) (noise_level : String) :
    NoiseLevelCounts :=
  if noise_level = "very_high" then { counts with very_high := counts.very_high + 1 }
  else if noise_level = "high" then { counts with high := counts.high + 1 }
  else if noise_level = "medium" then { counts with medium := counts.medium + 1 }
  else if noise_level = "low" then { counts with low := counts.low + 1 }
  else if noise_level = "unknown" then { counts with unknown := counts.unknown + 1 }
  else counts

/-- Sum of the five noise-level buckets. -/
def noiseLevelTotal (counts : NoiseLevelCounts) : ℕ :=
  counts.very_high + counts.high + counts.medium + counts.low + counts.unknown

/-- The aggregate counters of `RobustAudioAnalyzer.batch_analyze`
(`robust_audio_analyzer.py`, lines 430–486) that the claim concerns. -/
structure BatchAnalysis where
  total_files : ℕ
  analyzed : ℕ
  errors : ℕ
  noise_levels : NoiseLevelCounts
  files : List AnalyzeResult

/-- The body of the `for` loop of `batch_analyze`: an error result
bumps `errors` and the `unknown` bucket, a successful one bumps
`analyzed` and its noise-level bucket. -/
def batchStep (results : BatchAnalysis) (loaded : Option ClipData) :
    BatchAnalysis :=
  if (analyzeAudioFile loaded).error.isSome then
    { results with
        errors := results.errors + 1
        noise_levels := bumpNoiseLevel results.noise_levels "unknown"
        files := results.files ++ [analyzeAudioFile loaded] }
  else
    { results with
        analyzed := results.analyzed + 1
        noise_levels := bumpNoiseLevel results.noise_levels
          (analyzeAudioFile loaded).noise_level
        files := results.files ++ [analyzeAudioFile loaded] }

/-- Embedding of `RobustAudioAnalyzer.batch_analyze`: the counters are
initialised with `total_files = len(audio_files)` and every discovered
file is pushed through `analyze_audio_file`. -/
def batchAnalyze (inputs : List (Option ClipData)) : BatchAnalysis :=
  inputs.foldl batchStep
    { total_files := inputs.length
      analyzed := 0
      errors := 0
      noise_levels := ⟨0, 0, 0, 0, 0⟩
      files := [] }

/-- Bumping any of the five fixed keys raises the bucket sum by one. -/
lemma noiseLevelTotal_bump (counts : NoiseLevelCounts) (level : String)
    (h : level ∈ "unknown" :: fourNoiseLevels) :
    noiseLevelTotal (bumpNoiseLevel counts level) = noiseLevelTotal counts + 1 := by
  fin_cases h <;> simp [bumpNoiseLevel, noiseLevelTotal] <;> omega

/-- One batch step leaves `total_files` alone, adds one to
`analyzed + errors`, and adds one to the bucket sum. -/
lemma batchStep_counters (results : BatchAnalysis) (loaded : Option ClipData) :
    (batchStep results loaded).total_files = results.total_files
    ∧ (batchStep results loaded).analyzed + (batchStep results loaded).errors
        = results.analyzed + results.errors + 1
    ∧ noiseLevelTotal (batchStep results loaded).noise_levels
        = noiseLevelTotal results.noise_levels + 1 := by
  unfold batchStep
  by_cases herr : (analyzeAudioFile loaded).error.isSome = true
  · rw [if_pos herr]
    refine ⟨rfl, ?_, ?_⟩
    · dsimp only
      omega
    · dsimp only
      exact noiseLevelTotal_bump _ _ (by decide)
  · rw [if_neg herr]
    refine ⟨rfl, ?_, ?_⟩
    · dsimp only
      omega
    · dsimp only
      refine noiseLevelTotal_bump _ _ ?_
      cases loaded with
      | none => simp [analyzeAudioFile] at herr
      | some d =>
          exact List.mem_cons_of_mem _ (determineNoiseLevel_mem_four _ _ _)

/-- Folding batch steps over any input list adds the list's length to
`analyzed + errors` and to the bucket sum, and keeps `total_files`. -/
lemma batchAnalyze_fold (inputs : List (Option ClipData)) :
    ∀ results : BatchAnalysis,
      (inputs.foldl batchStep results).total_files = results.total_files
      ∧ (inputs.foldl batchStep results).analyzed
          + (inputs.foldl batchStep results).errors
          = results.analyzed + results.errors + inputs.length
      ∧ noiseLevelTotal (inputs.foldl batchStep results).noise_levels
          = noiseLevelTotal results.noise_levels + inputs.length := by
  induction inputs with
  | nil => intro results; simp
  | cons head tail ih =>
      intro results
      obtain ⟨ht, hc, hn⟩ := ih (batchStep results head)
      obtain ⟨st, sc, sn⟩ := batchStep_counters results head
      refine ⟨?_, ?_, ?_⟩
      · simpa [st] using ht
      · simp only [List.foldl_cons, List.length_cons]
        omega
      · simp only [List.foldl_cons, List.length_cons]
        omega

/-- The robust analyzer's batch counters are consistent: see the C10
theorem, which also covers the noise detector's variant. -/
lemma robustBatchAnalyze_counters (inputs : List (Option ClipData)) :
    (batchAnalyze inputs).analyzed + (batchAnalyze inputs).errors
        = (batchAnalyze inputs).total_files
    ∧ noiseLevelTotal (batchAnalyze inputs).noise_levels
        = (batchAnalyze inputs).total_files := by
  obtain ⟨ht, hc, hn⟩ := batchAnalyze_fold inputs
    { total_files := inputs.length
      analyzed := 0
      errors := 0
      noise_levels := ⟨0, 0, 0, 0, 0⟩
      files := [] }
  unfold batchAnalyze
  constructor
  · rw [hc, ht]
    simp
  · rw [hn, ht]
    simp [noiseLevelTotal]


/-! ## Batch orchestration of `accent_feature_extractor.main` -/

/-- What the per-file loop of `main` (`accent_feature_extractor.py`,
lines 248–298) observes about one discovered audio file: whether its
deterministic output path already exists, and whether the extraction
pipeline succeeds on it (`extract_features` + `np.savez_compressed`
without raising). -/
structure ClipFile where
  name : String
  outputExists : Bool
  extractOk : Bool

/-- The orchestrator's cross-clip state: the manifest buffer and the
`skipped` / `failures` counters. -/
structure RunCounters where
  manifest : List String
  skipped : ℕ
  failures : ℕ

/-- One iteration of the `for audio_path in audio_files` loop: an
existing output without `--overwrite` bumps `skipped` and produces no
manifest entry; otherwise a successful extraction appends one manifest
entry, and a failure bumps only `failures`. -/
def processFile (overwrite : Bool) (st : RunCounters) (f : ClipFile) :
    RunCounters :=
  if f.outputExists && !overwrite then
    { st with skipped := st.skipped + 1 }
  else if f.extractOk then
    { st with manifest := st.manifest ++ [f.name] }
  else
    { st with failures := st.failures + 1 }

/-- The whole batch run of `main` over the sorted list of discovered
files, starting from empty manifest and zero counters. -/
def runBatch (overwrite : Bool) (files : List ClipFile) : RunCounters :=
  files.foldl (processFile overwrite) { manifest := [], skipped := 0, failures := 0 }

/-- Folding the per-file loop: `skipped` counts the skip condition,
the manifest extends by the names of the successfully processed files
in order, and `failures` counts the failing non-skipped files. -/
lemma runBatch_fold (overwrite : Bool) (files : List ClipFile) :
    ∀ st : RunCounters,
      (files.foldl (processFile overwrite) st).skipped
          = st.skipped + files.countP (fun f => f.outputExists && !overwrite)
      ∧ (files.foldl (processFile overwrite) st).manifest
          = st.manifest ++ (files.filter
              (fun f => !(f.outputExists && !overwrite) && f.extractOk)).map ClipFile.name
      ∧ (files.foldl (processFile overwrite) st).failures
          = st.failures + files.countP
              (fun f => !(f.outputExists && !overwrite) && !f.extractOk) := by
  induction files with
  | nil => intro st; simp
  | cons head tail ih =>
      intro st
      by_cases hskip : (head.outputExists && !overwrite) = true
      · have hstep : processFile overwrite st head
            = { st with skipped := st.skipped + 1 } := by
          unfold processFile
          rw [if_pos hskip]
        obtain ⟨hs, hm, hf⟩ := ih { st with skipped := st.skipped + 1 }
        refine ⟨?_, ?_, ?_⟩
        · rw [List.foldl_cons, hstep, hs, List.countP_cons]
          simp [hskip]
          try omega
        · rw [List.foldl_cons, hstep, hm, List.filter_cons]
          simp [hskip]
        · rw [List.foldl_cons, hstep, hf, List.countP_cons]
          simp [hskip]
      · by_cases hok : head.extractOk = true
        · have hstep : processFile overwrite st head
              = { st with manifest := st.manifest ++ [head.name] } := by
            unfold processFile
            rw [if_neg hskip, if_pos hok]
          obtain ⟨hs, hm, hf⟩ := ih { st with manifest := st.manifest ++ [head.name] }
          refine ⟨?_, ?_, ?_⟩
          · rw [List.foldl_cons, hstep, hs, List.countP_cons]
            simp [hskip]
          · rw [List.foldl_cons, hstep, hm, List.filter_cons]
            simp [hskip, hok]
          · rw [List.foldl_cons, hstep, hf, List.countP_cons]
            simp [hskip, hok]
        · have hstep : processFile overwrite st head
              = { st with failures := st.failures + 1 } := by
            unfold processFile
            rw [if_neg hskip, if_neg hok]
          obtain ⟨hs, hm, hf⟩ := ih { st with failures := st.failures + 1 }
          refine ⟨?_, ?_, ?_⟩
          · rw [List.foldl_cons, hstep, hs, List.countP_cons]
            simp [hskip]
          · rw [List.foldl_cons, hstep, hm, List.filter_cons]
            simp [hskip, hok]
          · rw [List.foldl_cons, hstep, hf, List.countP_cons]
            simp [hskip, hok]
            try omega

/-- The files with an existing output and those without partition the
list. -/
lemma countP_outputExists_split (files : List ClipFile) :
    files.countP (fun f => f.outputExists)
        + files.countP (fun f => !f.outputExists) = files.length := by
  induction files with
  | nil => rfl
  | cons head tail ih =>
      cases hex : head.outputExists <;>
        simp [List.countP_cons, hex] <;> omega

/-- C9: a batch run without `--overwrite` over files of which exactly
those with a pre-existing output archive are skipped: `skipped` counts
them, the manifest holds exactly the names of the non-skipped,
successfully processed files (so no skipped file has a manifest entry),
and when every remaining file succeeds the run processes `N − M` files
with zero failures; a per-file failure bumps only the failure counter
and the loop continues. -/
theorem batch_skip_and_process_counts (files : List ClipFile)
    (h : ∀ f ∈ files, f.outputExists = false → f.extractOk = true) :
    (runBatch false files).skipped = files.countP (fun f => f.outputExists)
    ∧ (runBatch false files).manifest
        = (files.filter (fun f => !f.outputExists && f.extractOk)).map ClipFile.name
    ∧ (runBatch false files).manifest.length
        = files.length - files.countP (fun f => f.outputExists)
    ∧ (runBatch false files).failures = 0
    ∧ (∀ (overwrite : Bool) (st : RunCounters) (f : ClipFile),
        (f.outputExists && !overwrite) = false → f.extractOk = false →
          processFile overwrite st f = { st with failures := st.failures + 1 }) := by
  obtain ⟨hs, hm, hf⟩ := runBatch_fold false files
    { manifest := [], skipped := 0, failures := 0 }
  refine ⟨?_, ?_, ?_, ?_, ?_⟩
  · unfold runBatch
    rw [hs]
    simp
  · unfold runBatch
    rw [hm]
    simp
  · unfold runBatch
    rw [hm]
    have hfilter : files.filter (fun f => !(f.outputExists && !false) && f.extractOk)
        = files.filter (fun f => !f.outputExists) := by
      apply List.filter_congr
      intro f hfmem
      cases hex : f.outputExists with
      | false => simp [h f hfmem hex]
      | true => simp
    rw [List.nil_append, List.length_map, hfilter, ← List.countP_eq_length_filter]
    have hsplit := countP_outputExists_split files
    omega
  · unfold runBatch
    rw [hf]
    simp only [Nat.zero_add]
    rw [List.countP_eq_zero]
    intro f hfmem
    cases hex : f.outputExists with
    | false => simp [hex, h f hfmem hex]
    | true => simp [hex]
  · intro overwrite st f hns hbad
    unfold processFile
    rw [if_neg (by simp [hns]), if_neg (by simp [hbad])]

/-- Concrete file list for the C9 witness: one file with a pre-existing
output, two fresh files that extract successfully. -/
def c9Files : List ClipFile :=
  [{ name := "a", outputExists := true, extractOk := true },
   { name := "b", outputExists := false, extractOk := true },
   { name := "c", outputExists := false, extractOk := true }]

/-- C9 witness: on the concrete three-file batch with one pre-existing
output, the run skips exactly 1 file, writes 2 manifest entries and
fails on none. -/
theorem batch_skip_and_process_counts_witness :
    (∀ f ∈ c9Files, f.outputExists = false → f.extractOk = true)
    ∧ (runBatch false c9Files).skipped = 1
    ∧ (runBatch false c9Files).manifest.length = 2
    ∧ (runBatch false c9Files).failures = 0 := by
  have h := batch_skip_and_process_counts c9Files (by decide)
  exact ⟨by decide, h.1.trans (by decide), (h.2.2.1).trans (by decide), h.2.2.2.1⟩

/-! ## The silence trimmer

`extract_features` delegates trimming to the external call
`librosa.effects.trim(y, top_db=trim_top_db)`; that code is not part
of this repository, so the trimmer is modelled from the spec
(section 4.2, Silence Trimmer). -/

/-- Drop the leading and trailing elements failing `keep`, keeping the
span from the first to the last kept element. -/
def trimEnds (keep : ℚ → Bool) (y : List ℚ) : List ℚ :=
  ((y.dropWhile (fun x => !keep x)).reverse.dropWhile (fun x => !keep x)).reverse

/-- Modelled from the spec: the silence trimmer (the external
`librosa.effects.trim`).  A frame level counts as non-silent when it is
within `top_db` of the signal's peak level; the output spans the first
to the last non-silent frame, and is empty when no frame qualifies. -/
def trimSignal (top_db : ℚ) (y : List ℚ) : List ℚ :=
  match y.max? with
  | none => []
  | some peak => trimEnds (fun x => decide (peak - top_db ≤ x)) y

/-- An element on which `p` fails survives `dropWhile p`. -/
lemma mem_dropWhile_of_mem {p : ℚ → Bool} {x : ℚ} :
    ∀ {l : List ℚ}, x ∈ l → p x = false → x ∈ l.dropWhile p := by
  intro l
  induction l with
  | nil => intro h; cases h
  | cons a t ih =>
      intro hmem hpx
      rw [List.dropWhile_cons]
      by_cases hpa : p a = true
      · rw [if_pos hpa]
        rcases List.mem_cons.mp hmem with rfl | ht
        · rw [hpx] at hpa; cases hpa
        · exact ih ht hpx
      · rw [if_neg hpa]
        exact hmem

/-- A kept element survives the two-sided trim. -/
lemma mem_trimEnds_of_mem (keep : ℚ → Bool) {x : ℚ} {l : List ℚ}
    (hx : x ∈ l) (hk : keep x = true) : x ∈ trimEnds keep l := by
  unfold trimEnds
  have hq : (fun a => !keep a) x = false := by simp [hk]
  rw [List.mem_reverse]
  exact mem_dropWhile_of_mem (List.mem_reverse.mpr (mem_dropWhile_of_mem hx hq)) hq

/-- The two-sided trim only removes elements. -/
lemma trimEnds_subset (keep : ℚ → Bool) (l : List ℚ) :
    trimEnds keep l ⊆ l := by
  intro a ha
  unfold trimEnds at ha
  rw [List.mem_reverse] at ha
  have h1 := (List.dropWhile_sublist (l := (l.dropWhile (fun x => !keep x)).reverse)
    (fun x => !keep x)).subset ha
  rw [List.mem_reverse] at h1
  exact (List.dropWhile_sublist _).subset h1

/-- `dropWhile` is the identity when the head (if any) fails the
predicate. -/
lemma dropWhile_eq_self_of_head (p : ℚ → Bool) (l : List ℚ)
    (h : ∀ x ∈ l.head?, p x = false) : l.dropWhile p = l := by
  cases l with
  | nil => rfl
  | cons a t =>
      rw [List.dropWhile_cons, if_neg]
      simp only [Bool.not_eq_true]
      exact h a rfl

/-- The head of a `dropWhile p` result fails `p`. -/
lemma head_mem_dropWhile_not (p : ℚ → Bool) (l : List ℚ) :
    ∀ x ∈ (l.dropWhile p).head?, p x = false := by
  intro x hx
  have hmatch := List.head?_dropWhile_not p l
  rw [Option.mem_def] at hx
  rw [hx] at hmatch
  exact hmatch

/-- Two-sided trimming is idempotent for a fixed keep predicate: the
first and last surviving elements are kept, so a second pass removes
nothing. -/
lemma trimEnds_idem (keep : ℚ → Bool) (l : List ℚ) :
    trimEnds keep (trimEnds keep l) = trimEnds keep l := by
  cases hB : (l.dropWhile (fun x => !keep x)).reverse.dropWhile (fun x => !keep x) with
  | nil =>
      show trimEnds keep (trimEnds keep l) = trimEnds keep l
      unfold trimEnds
      rw [hB]
      rfl
  | cons b bt =>
      have hBne : (l.dropWhile (fun x => !keep x)).reverse.dropWhile
          (fun x => !keep x) ≠ [] := by rw [hB]; exact List.cons_ne_nil b bt
      have h1 : ((l.dropWhile (fun x => !keep x)).reverse.dropWhile
            (fun x => !keep x)).reverse.dropWhile (fun x => !keep x)
          = ((l.dropWhile (fun x => !keep x)).reverse.dropWhile
            (fun x => !keep x)).reverse := by
        apply dropWhile_eq_self_of_head
        intro x hx
        rw [List.head?_reverse] at hx
        obtain ⟨t, ht⟩ := List.dropWhile_suffix
          (l := (l.dropWhile (fun x => !keep x)).reverse) (fun x => !keep x)
        have hlast : ((l.dropWhile (fun x => !keep x)).reverse.dropWhile
            (fun x => !keep x)).getLast?
            = (l.dropWhile (fun x => !keep x)).reverse.getLast? := by
          conv_rhs => rw [← ht]
          rw [List.getLast?_append]
          have : ((l.dropWhile (fun x => !keep x)).reverse.dropWhile
              (fun x => !keep x)).getLast?.isSome := by
            rw [hB, Option.isSome_iff_ne_none]
            intro hnone
            rw [List.getLast?_eq_none_iff] at hnone
            exact List.cons_ne_nil b bt hnone
          exact (Option.or_of_isSome this).symm
        rw [hlast, List.getLast?_reverse] at hx
        exact head_mem_dropWhile_not _ _ x hx
      show (((((l.dropWhile (fun x => !keep x)).reverse.dropWhile
          (fun x => !keep x)).reverse).dropWhile (fun x => !keep x)).reverse.dropWhile
          (fun x => !keep x)).reverse
        = ((l.dropWhile (fun x => !keep x)).reverse.dropWhile (fun x => !keep x)).reverse
      rw [h1, List.reverse_reverse]
      have h3 : ((l.dropWhile (fun x => !keep x)).reverse.dropWhile
            (fun x => !keep x)).dropWhile (fun x => !keep x)
          = (l.dropWhile (fun x => !keep x)).reverse.dropWhile (fun x => !keep x) := by
        apply dropWhile_eq_self_of_head
        exact head_mem_dropWhile_not _ _
      rw [h3]

/-- C5: silence trimming is idempotent under a fixed nonnegative
threshold: re-trimming an already trimmed signal returns it whole —
the peak survives the first trim, so the peak-relative non-silence
rule is unchanged, and the surviving span is bordered by non-silent
frames. -/
theorem trimSignal_idempotent (top_db : ℚ) (h : 0 ≤ top_db) (y : List ℚ) :
    trimSignal top_db (trimSignal top_db y) = trimSignal top_db y := by
  cases hmax : y.max? with
  | none =>
      have hy : y = [] := List.max?_eq_none_iff.mp hmax
      subst hy
      rfl
  | some m =>
      have hTS : trimSignal top_db y
          = trimEnds (fun x => decide (m - top_db ≤ x)) y := by
        unfold trimSignal
        rw [hmax]
      have hmem_y : m ∈ y := List.max?_mem (fun a b => max_choice a b) hmax
      have hub : ∀ b ∈ y, b ≤ m :=
        (List.max?_le_iff (fun a b c => max_le_iff) hmax).mp (le_refl m)
      have hkm : (fun x => decide (m - top_db ≤ x)) m = true := by
        simp only [decide_eq_true_eq]
        linarith
      have hmem_r : m ∈ trimEnds (fun x => decide (m - top_db ≤ x)) y :=
        mem_trimEnds_of_mem _ hmem_y hkm
      have hub_r : ∀ b ∈ trimEnds (fun x => decide (m - top_db ≤ x)) y, b ≤ m :=
        fun b hb => hub b (trimEnds_subset _ _ hb)
      obtain ⟨m2, hm2⟩ : ∃ m2,
          (trimEnds (fun x => decide (m - top_db ≤ x)) y).max? = some m2 := by
        cases hh : (trimEnds (fun x => decide (m - top_db ≤ x)) y).max? with
        | none =>
            exact absurd (List.max?_eq_none_iff.mp hh) (List.ne_nil_of_mem hmem_r)
        | some m2 => exact ⟨m2, rfl⟩
      have hm2m : m2 = m := by
        have ha : m2 ∈ trimEnds (fun x => decide (m - top_db ≤ x)) y :=
          List.max?_mem (fun a b => max_choice a b) hm2
        have hb : ∀ b ∈ trimEnds (fun x => decide (m - top_db ≤ x)) y, b ≤ m2 :=
          (List.max?_le_iff (fun a b c => max_le_iff) hm2).mp (le_refl m2)
        exact le_antisymm (hub_r m2 ha) (hb m hmem_r)
      rw [hTS]
      unfold trimSignal
      rw [hm2, hm2m]
      exact trimEnds_idem _ y

/-- C5 witness signal. -/
def c5Signal : List ℚ := [-60, -40, -3, -18, -70]

/-- C5 witness: the idempotence theorem applied at `top_db = 25` on a
concrete five-frame level sequence. -/
theorem trimSignal_idempotent_witness :
    (0 : ℚ) ≤ 25
    ∧ trimSignal 25 (trimSignal 25 c5Signal) = trimSignal 25 c5Signal :=
  ⟨by norm_num, trimSignal_idempotent 25 (by norm_num) c5Signal⟩

/-! ## `extract_features` (`accent_feature_extractor.py`) -/

/-- The fields of the per-clip feature output that the claims are
about: the (possibly trimmed) waveform, the pitch contour with its
voiced ratio, and the nullable tempo. -/
structure FeatureRecord where
  waveform : List ℚ
  pitch : List ℚ
  voicedRatio : ℚ
  tempo_bpm : Option ℚ
deriving DecidableEq

/-- `np.count_nonzero(pitch)`. -/
def countNonzero (l : List ℚ) : ℕ := l.countP (fun x => decide (x ≠ 0))

/-- The pitch block of `extract_features` (lines 120–132): on a
successful `librosa.yin` call (`some p`, NaNs already replaced by 0)
the voiced ratio is `count_nonzero / size`; any exception — including
the division by a zero `pitch.size` — falls back to a single-zero
pitch array with voiced ratio 0. -/
def pitchRecovery (pitchResult : Option (List ℚ)) : List ℚ × ℚ :=
  match pitchResult with
  | some p =>
      if p.length = 0 then ([0], 0)
      else (p, (countNonzero p : ℚ) / (p.length : ℚ))
  | none => ([0], 0)

/-- Embedding of the trim guard and recovery structure of
`extract_features` (`accent_feature_extractor.py`, lines 82–141).
`keep` is the frame-level non-silence predicate applied by the external
`librosa.effects.trim` call (for a signal with a nonzero peak it is the
peak-relative rule of `trimSignal`; for an all-zero signal no frame
qualifies).  `pitchResult` / `tempoResult` are `none` when `librosa.yin`
resp. `librosa.beat.beat_track` raises, mirroring the two `try` blocks;
the tempo is reported as absent (`none`) in that case. -/
def extract_features (keep : ℚ → Bool) (y : List ℚ)
    (pitchResult : Option (List ℚ)) (tempoResult : Option ℚ) :
    Except String FeatureRecord :=
  if (trimEnds keep y).length ≠ 0 then
    Except.ok
      { waveform := trimEnds keep y
        pitch := (pitchRecovery pitchResult).1
        voicedRatio := (pitchRecovery pitchResult).2
        tempo_bpm := tempoResult }
  else if y.length = 0 then
    Except.error "Empty audio after trimming"
  else
    Except.ok
      { waveform := y
        pitch := (pitchRecovery pitchResult).1
        voicedRatio := (pitchRecovery pitchResult).2
        tempo_bpm := tempoResult }

/-- The all-zero three-sample clip of the C3 counterexample. -/
def silentClip : List ℚ := [0, 0, 0]

/-- The non-silence predicate the external trimmer computes on an
all-zero signal: no frame qualifies. -/
def silentKeep : ℚ → Bool := fun _ => false

/-- C3 (counterexample): on a fully silent, nonempty clip — every frame
fails the non-silence predicate, so trimming yields the empty signal —
`extract_features` does not raise the empty-signal error: the guard
`if y_trimmed.size:` falls back to the untrimmed signal and extraction
returns a feature set. -/
theorem silent_clip_extraction_succeeds :
    silentClip ≠ []
    ∧ (∀ x ∈ silentClip, silentKeep x = false)
    ∧ trimEnds silentKeep silentClip = []
    ∧ extract_features silentKeep silentClip none none
        = Except.ok
            { waveform := silentClip
              pitch := [0]
              voicedRatio := 0
              tempo_bpm := none } := by
  refine ⟨by decide, by decide, by decide, ?_⟩
  rfl

/-- C3 (amended): `extract_features` raises the empty-signal error if
and only if the input signal itself is empty; when trimming removes
everything from a nonempty signal, the extractor silently falls back to
the untrimmed signal instead of raising. -/
theorem extraction_error_iff_input_empty (keep : ℚ → Bool) (y : List ℚ)
    (pitchResult : Option (List ℚ)) (tempoResult : Option ℚ) :
    (∃ e, extract_features keep y pitchResult tempoResult = Except.error e)
      ↔ y = [] := by
  unfold extract_features
  by_cases hyt : (trimEnds keep y).length ≠ 0
  · rw [if_pos hyt]
    constructor
    · rintro ⟨e, he⟩
      cases he
    · rintro rfl
      exact absurd (by rfl) hyt
  · rw [if_neg hyt]
    by_cases hy : y.length = 0
    · rw [if_pos hy]
      exact iff_of_true ⟨_, rfl⟩ (List.length_eq_zero.mp hy)
    · rw [if_neg hy]
      constructor
      · rintro ⟨e, he⟩
        cases he
      · rintro rfl
        exact absurd rfl hy

/-- C7: for a nonempty clip, failure of pitch estimation or of tempo
estimation never aborts feature extraction: the call returns a feature
set in which a pitch failure shows up as the zero-filled pitch array
with voiced ratio 0, and a tempo failure as an absent (`none`) tempo. -/
theorem pitch_tempo_failure_recovered (keep : ℚ → Bool) (y : List ℚ)
    (pitchResult : Option (List ℚ)) (tempoResult : Option ℚ)
    (h : y ≠ []) :
    ∃ r : FeatureRecord,
      extract_features keep y pitchResult tempoResult = Except.ok r
      ∧ (pitchResult = none → r.pitch = [0] ∧ r.voicedRatio = 0)
      ∧ (tempoResult = none → r.tempo_bpm = none) := by
  unfold extract_features
  by_cases hyt : (trimEnds keep y).length ≠ 0
  · rw [if_pos hyt]
    refine ⟨_, rfl, ?_, ?_⟩
    · rintro rfl
      exact ⟨rfl, rfl⟩
    · rintro rfl
      rfl
  · rw [if_neg hyt, if_neg (by simpa using h)]
    refine ⟨_, rfl, ?_, ?_⟩
    · rintro rfl
      exact ⟨rfl, rfl⟩
    · rintro rfl
      rfl

/-- C7 witness: on the concrete one-sample clip with both estimators
failing, extraction returns a feature set with the sentinel pitch and
absent tempo. -/
theorem pitch_tempo_failure_recovered_witness :
    ([(1 : ℚ)] ≠ [])
    ∧ ∃ r : FeatureRecord,
        extract_features (fun _ => true) [(1 : ℚ)] none none = Except.ok r
        ∧ ((none : Option (List ℚ)) = none → r.pitch = [0] ∧ r.voicedRatio = 0)
        ∧ ((none : Option ℚ) = none → r.tempo_bpm = none) :=
  ⟨by decide,
    pitch_tempo_failure_recovered (fun _ => true) [(1 : ℚ)] none none (by decide)⟩

/-! ## The spectral framing

`extract_features` obtains all frame-indexed feature arrays (magnitude
spectrogram, mel / log-mel, MFCC, spectral contrast, chroma, spectral
centroid, spectral bandwidth, RMS, zero-crossing rate) from external
librosa calls sharing the frame size and hop; the framing itself is not
code of this repository, so it is modelled from the spec
(section 4.3, Spectral Transform Engine). -/

/-- Modelled from the spec: overlapping framing of a trimmed signal —
emit one frame of `frame_size` samples at each multiple of `hop` while
a full frame fits.  The first argument is structural fuel bounding the
number of emitted frames (any value above the signal length is
enough). -/
def frameSignalGo (frame_size hop : ℕ) : ℕ → List ℚ → List (List ℚ)
  | 0, _ => []
  | fuel + 1, y =>
      if frame_size ≤ y.length then
        y.take frame_size :: frameSignalGo frame_size hop fuel (y.drop hop)
      else []

/-- The frames of a signal, with sufficient fuel. -/
def frameSignal (frame_size hop : ℕ) (y : List ℚ) : List (List ℚ) :=
  frameSignalGo frame_size hop (y.length + 1) y

/-- A frame-indexed feature array: one kernel value per frame.  Every
frame-indexed output of the spectral transform engine and the
temporal/prosodic analyzer is of this shape, with a feature-specific
per-frame kernel. -/
def framewise {α : Type} (kernel : List ℚ → α) (frame_size hop : ℕ)
    (y : List ℚ) : List α :=
  (frameSignal frame_size hop y).map kernel

/-- When no full frame fits the framing is empty, whatever the fuel. -/
lemma frameSignalGo_eq_nil (frame_size hop : ℕ) (fuel : ℕ) (y : List ℚ)
    (h : ¬ frame_size ≤ y.length) :
    frameSignalGo frame_size hop fuel y = [] := by
  cases fuel with
  | zero => rfl
  | succ n =>
      unfold frameSignalGo
      rw [if_neg h]

/-- With enough fuel, the number of frames matches the closed
formula. -/
lemma frameSignalGo_length (frame_size hop : ℕ) (hhop : 0 < hop)
    (hfs : 0 < frame_size) :
    ∀ (fuel : ℕ) (y : List ℚ), y.length < fuel → frame_size ≤ y.length →
      (frameSignalGo frame_size hop fuel y).length
        = (y.length - frame_size) / hop + 1 := by
  intro fuel
  induction fuel with
  | zero => intro y hlt; omega
  | succ n ih =>
      intro y hlt hfit
      unfold frameSignalGo
      rw [if_pos hfit]
      rw [List.length_cons]
      by_cases hnext : frame_size ≤ (y.drop hop).length
      · have hdrop : (y.drop hop).length = y.length - hop := List.length_drop hop y
        have hrec := ih (y.drop hop) (by omega) hnext
        rw [hrec, hdrop]
        have hge : hop ≤ y.length - frame_size := by
          rw [hdrop] at hnext
          omega
        rw [Nat.div_eq_sub_div hhop hge]
        have harg : y.length - hop - frame_size = y.length - frame_size - hop := by
          omega
        rw [harg]
      · rw [frameSignalGo_eq_nil frame_size hop n (y.drop hop) hnext]
        have hdrop : (y.drop hop).length = y.length - hop := List.length_drop hop y
        rw [hdrop] at hnext
        have hlt2 : y.length - frame_size < hop := by omega
        rw [Nat.div_eq_of_lt hlt2]
        rfl

/-- C1: every frame-indexed feature array over a trimmed signal of `N`
samples has frame count `(N − frame_size) / hop + 1`, and any two
frame-indexed feature arrays computed from the same signal with the
same framing agree on the frame count exactly — in particular within
±1. -/
theorem framewise_frame_counts {α β : Type} (kernel1 : List ℚ → α)
    (kernel2 : List ℚ → β) (frame_size hop : ℕ) (y : List ℚ)
    (hhop : 0 < hop) (hfs : 0 < frame_size) (hfit : frame_size ≤ y.length) :
    (framewise kernel1 frame_size hop y).length
        = (y.length - frame_size) / hop + 1
    ∧ (framewise kernel1 frame_size hop y).length
        = (framewise kernel2 frame_size hop y).length
    ∧ (framewise kernel2 frame_size hop y).length
        ≤ (framewise kernel1 frame_size hop y).length + 1 := by
  have hlen : ∀ {γ : Type} (k : List ℚ → γ),
      (framewise k frame_size hop y).length
        = (y.length - frame_size) / hop + 1 := by
    intro γ k
    unfold framewise frameSignal
    rw [List.length_map]
    exact frameSignalGo_length frame_size hop hhop hfs (y.length + 1) y
      (by omega) hfit
  refine ⟨hlen kernel1, ?_, ?_⟩
  · rw [hlen kernel1, hlen kernel2]
  · rw [hlen kernel1, hlen kernel2]
    omega

/-- C1 witness signal: ten samples. -/
def c1Signal : List ℚ := [1, -1, 2, -2, 3, -3, 4, -4, 5, -5]

/-- C1 witness: with frame size 4 and hop 2 on the concrete ten-sample
signal, two different feature kernels both produce
`(10 − 4) / 2 + 1 = 4` frames. -/
theorem framewise_frame_counts_witness :
    0 < 2 ∧ 0 < 4 ∧ 4 ≤ c1Signal.length
    ∧ ((framewise (fun frame => (frame.length : ℚ)) 4 2 c1Signal).length
          = (c1Signal.length - 4) / 2 + 1
        ∧ (framewise (fun frame => (frame.length : ℚ)) 4 2 c1Signal).length
          = (framewise (fun frame => frame) 4 2 c1Signal).length
        ∧ (framewise (fun frame => frame) 4 2 c1Signal).length
          ≤ (framewise (fun frame => (frame.length : ℚ)) 4 2 c1Signal).length + 1) :=
  ⟨by decide, by decide, by decide,
    framewise_frame_counts (fun frame => (frame.length : ℚ)) (fun frame => frame)
      4 2 c1Signal (by decide) (by decide) (by decide)⟩

/-! ## `NoiseDetector.analyze_audio_file` and `NoiseDetector.batch_analyze` -/

/-- The data a successful ffprobe + ffmpeg pass of
`NoiseDetector.analyze_audio_file` extracts for one clip: the stream
properties and the parsed noise metrics (`_analyze_noise_characteristics`
itself never raises — it falls back to zeroed metrics). -/
structure NdClipData where
  sample_rate : ℕ
  channels : ℕ
  duration : ℚ
  bitrate : ℕ
  noise_analysis : NoiseMetrics

/-- The fields of the dictionary returned by
`NoiseDetector.analyze_audio_file` that the claims are about.  `error`
is `some` exactly when Python puts an `'error'` key into the result;
the error dictionaries carry no recommendation, hence the `Option`. -/
structure NdAnalyzeResult where
  error : Option String
  noise_level : String
  quality_score : ℚ
  recommendation : Option String

/-- Embedding of `NoiseDetector.analyze_audio_file`
(`noise_detector.py`, lines 31–113).  `none` stands for the paths on
which Python builds an error dictionary (ffprobe failure, missing audio
stream, timeout, or a caught exception): there `noise_level` is
`'unknown'` and `quality_score` is 0. -/
def ndAnalyzeAudioFile (loaded : Option NdClipData) : NdAnalyzeResult :=
  match loaded with
  | none =>
      { error := some "ffprobe failed"
        noise_level := "unknown"
        quality_score := 0
        recommendation := none }
  | some d =>
      let quality_score := ndCalculateQualityScore d.sample_rate d.channels
        d.duration d.bitrate d.noise_analysis
      let noise_level := ndDetermineNoiseLevel d.noise_analysis quality_score
      { error := none
        noise_level := noise_level
        quality_score := quality_score
        recommendation := some (ndGetRecommendation noise_level quality_score) }

/-- `NoiseDetector._determine_noise_level` only ever returns one of the
four defined levels. -/
lemma ndDetermineNoiseLevel_mem_four (na : NoiseMetrics) (quality_score : ℚ) :
    ndDetermineNoiseLevel na quality_score ∈ fourNoiseLevels := by
  unfold ndDetermineNoiseLevel
  split_ifs <;> decide

/-- The aggregate counters of `NoiseDetector.batch_analyze`
(`noise_detector.py`, lines 254–304); the counter dictionary is
initialised exactly like the robust analyzer's. -/
structure NdBatchAnalysis where
  total_files : ℕ
  analyzed : ℕ
  errors : ℕ
  noise_levels : NoiseLevelCounts
  files : List NdAnalyzeResult

/-- The body of the `for` loop of `NoiseDetector.batch_analyze`: an
error result bumps `errors` and the `unknown` bucket, a successful one
bumps `analyzed` and its noise-level bucket. -/
def ndBatchStep (results : NdBatchAnalysis) (loaded : Option NdClipData) :
    NdBatchAnalysis :=
  if (ndAnalyzeAudioFile loaded).error.isSome then
    { results with
        errors := results.errors + 1
        noise_levels := bumpNoiseLevel results.noise_levels "unknown"
        files := results.files ++ [ndAnalyzeAudioFile loaded] }
  else
    { results with
        analyzed := results.analyzed + 1
        noise_levels := bumpNoiseLevel results.noise_levels
          (ndAnalyzeAudioFile loaded).noise_level
        files := results.files ++ [ndAnalyzeAudioFile loaded] }

/-- Embedding of `NoiseDetector.batch_analyze`: counters start with
`total_files = len(audio_files)` and every discovered file goes through
`analyze_audio_file`. -/
def ndBatchAnalyze (inputs : List (Option NdClipData)) : NdBatchAnalysis :=
  inputs.foldl ndBatchStep
    { total_files := inputs.length
      analyzed := 0
      errors := 0
      noise_levels := ⟨0, 0, 0, 0, 0⟩
      files := [] }

/-- One detector batch step leaves `total_files` alone, adds one to
`analyzed + errors`, and adds one to the bucket sum. -/
lemma ndBatchStep_counters (results : NdBatchAnalysis)
    (loaded : Option NdClipData) :
    (ndBatchStep results loaded).total_files = results.total_files
    ∧ (ndBatchStep results loaded).analyzed + (ndBatchStep results loaded).errors
        = results.analyzed + results.errors + 1
    ∧ noiseLevelTotal (ndBatchStep results loaded).noise_levels
        = noiseLevelTotal results.noise_levels + 1 := by
  unfold ndBatchStep
  by_cases herr : (ndAnalyzeAudioFile loaded).error.isSome = true
  · rw [if_pos herr]
    refine ⟨rfl, ?_, ?_⟩
    · dsimp only
      omega
    · dsimp only
      exact noiseLevelTotal_bump _ _ (by decide)
  · rw [if_neg herr]
    refine ⟨rfl, ?_, ?_⟩
    · dsimp only
      omega
    · dsimp only
      refine noiseLevelTotal_bump _ _ ?_
      cases loaded with
      | none => simp [ndAnalyzeAudioFile] at herr
      | some d =>
          exact List.mem_cons_of_mem _ (ndDetermineNoiseLevel_mem_four _ _)

/-- Folding detector batch steps over any input list adds the list's
length to `analyzed + errors` and to the bucket sum, and keeps
`total_files`. -/
lemma ndBatchAnalyze_fold (inputs : List (Option NdClipData)) :
    ∀ results : NdBatchAnalysis,
      (inputs.foldl ndBatchStep results).total_files = results.total_files
      ∧ (inputs.foldl ndBatchStep results).analyzed
          + (inputs.foldl ndBatchStep results).errors
          = results.analyzed + results.errors + inputs.length
      ∧ noiseLevelTotal (inputs.foldl ndBatchStep results).noise_levels
          = noiseLevelTotal results.noise_levels + inputs.length := by
  induction inputs with
  | nil => intro results; simp
  | cons head tail ih =>
      intro results
      obtain ⟨ht, hc, hn⟩ := ih (ndBatchStep results head)
      obtain ⟨st, sc, sn⟩ := ndBatchStep_counters results head
      refine ⟨?_, ?_, ?_⟩
      · simpa [st] using ht
      · simp only [List.foldl_cons, List.length_cons]
        omega
      · simp only [List.foldl_cons, List.length_cons]
        omega

/-- The noise detector's batch counters are consistent: see the C10
theorem, which combines both batch analyzers. -/
lemma ndBatchAnalyze_counters (inputs : List (Option NdClipData)) :
    (ndBatchAnalyze inputs).analyzed + (ndBatchAnalyze inputs).errors
        = (ndBatchAnalyze inputs).total_files
    ∧ noiseLevelTotal (ndBatchAnalyze inputs).noise_levels
        = (ndBatchAnalyze inputs).total_files := by
  obtain ⟨ht, hc, hn⟩ := ndBatchAnalyze_fold inputs
    { total_files := inputs.length
      analyzed := 0
      errors := 0
      noise_levels := ⟨0, 0, 0, 0, 0⟩
      files := [] }
  unfold ndBatchAnalyze
  constructor
  · rw [hc, ht]
    simp
  · rw [hn, ht]
    simp [noiseLevelTotal]

/-- C10: in every batch analysis result of either quality analyzer —
`RobustAudioAnalyzer.batch_analyze` and `NoiseDetector.batch_analyze` —
the counters are consistent: `analyzed + errors = total_files`, and
since every examined file bumps exactly one noise-level bucket (errors
the `unknown` bucket), the five bucket counts sum to `total_files`. -/
theorem batchAnalyze_counters_consistent (inputs : List (Option ClipData))
    (ndInputs : List (Option NdClipData)) :
    ((batchAnalyze inputs).analyzed + (batchAnalyze inputs).errors
        = (batchAnalyze inputs).total_files
      ∧ noiseLevelTotal (batchAnalyze inputs).noise_levels
        = (batchAnalyze inputs).total_files)
    ∧ ((ndBatchAnalyze ndInputs).analyzed + (ndBatchAnalyze ndInputs).errors
        = (ndBatchAnalyze ndInputs).total_files
      ∧ noiseLevelTotal (ndBatchAnalyze ndInputs).noise_levels
        = (ndBatchAnalyze ndInputs).total_files) :=
  ⟨robustBatchAnalyze_counters inputs, ndBatchAnalyze_counters ndInputs⟩

end AccentAudio
